import Mathlib

/-!
Verification of the pixt image-to-character-art renderer.

The development shallowly embeds the Rust sources:
  * `src/img.rs`   — palette lookup (`PixtData::get_char`,
    `PixtData::get_char_single_raw`), the pixel-pair sampling iterators
    (`ItrImgOuter` / `ItrImgInner` inside `PixtData::chars`), the
    orchestrator `PixtImg::print`, and the output sink
    (`OutputType::print_pixel`, `print_line`, `write_header`,
    `write_footer`, `avg_color`, `rgb_to_css_hex`).
  * `src/cli.rs`   — the second implementation of the sampler
    (`Style::print`) and glyph lookup (`Style::get_char`), which shares
    the numeric code of `img.rs` verbatim.

Machine integers are modelled as `Nat`; a Rust `as u8` narrowing cast is
`% 256` at exactly the places the source casts.  A Rust index expression
that can panic (out-of-bounds `Vec` indexing, `usize` underflow of
`cols - 1` on an empty row) is modelled by `Option`/`Except`: `none`
(resp. `.error`) is the panic.  An `io::Write` sink is a `List Char`
buffer threaded in state-passing style; every writer operation appends.
-/

/-- An RGB colour: three 8-bit channels.  Channels are `Nat`s; the
`Rgb.Valid` predicate records the `u8` range invariant supplied by the
Rust type system. -/
structure Rgb where
  r : Nat
  g : Nat
  b : Nat
deriving Repr, DecidableEq

/-- The `u8` range invariant of the three channels. -/
def Rgb.Valid (c : Rgb) : Prop := c.r < 256 ∧ c.g < 256 ∧ c.b < 256

instance (c : Rgb) : Decidable c.Valid := by
  unfold Rgb.Valid; infer_instance

/-- Grayscale intensity: unweighted truncating mean of the three
channels, as computed (inline, in `u16`) by both `get_char` variants and
the spec's Color Reducer `intensity(c) = (r + g + b) / 3`. -/
def intensity (c : Rgb) : Nat := (c.r + c.g + c.b) / 3

/-- A palette (`PixtData.data` / `Style.0` in the source):
`Vec<Vec<char>>`, an ordered list of character rows. -/
abbrev Palette := List (List Char)

/-- Embedding of `PixtData::get_char` (`src/img.rs:53-69`), identical to
`Style::get_char` (`src/cli.rs:316-332`).

```
let rows = self.data.len();
let cols = self.data[0].len();                     -- panics on empty data
let top_intensity = ((tr + tg + tb) / 3) as u8;    -- u16 mean, u8 cast
let bottom_intensity = ((br + bg + bb) / 3) as u8;
let row_index = min((top_intensity * cols) / 255, cols - 1);
let col_index = min((bottom_intensity * rows) / 255, rows - 1);
self.data[col_index][row_index]
```
`u8::MAX as usize = 255` is the divisor.  `none` models the panics: the
`self.data[0]` access on an empty palette, the `cols - 1` underflow on
an empty first row, and out-of-bounds indexing of a ragged palette. -/
def getChar (data : Palette) (t b : Rgb) : Option Char :=
  match data.head? with
  | none => none
  | some row0 =>
    let rows := data.length
    let cols := row0.length
    if cols = 0 then none
    else
      let topIntensity := ((t.r + t.g + t.b) / 3) % 256
      let bottomIntensity := ((b.r + b.g + b.b) / 3) % 256
      let rowIndex := min (topIntensity * cols / 255) (cols - 1)
      let colIndex := min (bottomIntensity * rows / 255) (rows - 1)
      (data.get? colIndex).bind (fun row => row.get? rowIndex)

/-- Embedding of `PixtData::get_char_single_raw` (`src/img.rs:71-82`),
identical to `Style::get_char_single_raw` (`src/cli.rs:334-345`).

```
let cols = self.data[0].len();
let top_intensity = (tr + tg + tb) / 3;            -- stays u16, no cast
let bottom_intensity = (br + bg + bb) / 3;
let avg_intensity = (top_intensity + bottom_intensity) / 2;
let col_index = min((avg_intensity * cols) / 255, cols - 1);
self.data[0][col_index]
```
-/
def getCharSingleRaw (data : Palette) (t b : Rgb) : Option Char :=
  match data.head? with
  | none => none
  | some row0 =>
    let cols := row0.length
    if cols = 0 then none
    else
      let topIntensity := (t.r + t.g + t.b) / 3
      let bottomIntensity := (b.r + b.g + b.b) / 3
      let avgIntensity := (topIntensity + bottomIntensity) / 2
      let colIndex := min (avgIntensity * cols / 255) (cols - 1)
      row0.get? colIndex

/-- A decoded raster image: dimensions plus per-pixel RGB lookup
(`DynamicImage::get_pixel(x, y).to_rgb()`).  `pix` is total; every
access the embedded code performs is in bounds. -/
structure Image where
  width : Nat
  height : Nat
  pix : Nat → Nat → Rgb

/-- One glyph cell as produced by the sampling iterators: the resolved
character (`none` records a palette-indexing panic inside `get_char`)
and the two sampled colours.  The source's `Pixel` also carries the
(x, y) coordinates, which no output sink reads; they are dropped. -/
structure Cell where
  ch : Option Char
  top : Rgb
  bottom : Rgb
deriving Repr, DecidableEq

/-- The per-cell glyph choice of `ItrImgInner::next`
(`src/img.rs:156-160`): the single-row palette uses
`get_char_single_raw`, every other palette uses `get_char`. -/
def sampleCell (data : Palette) (img : Image) (x y : Nat) : Cell :=
  let t := img.pix x y
  let b := img.pix x (y + 1)
  { ch := if data.length = 1 then getCharSingleRaw data t b else getChar data t b
    top := t
    bottom := b }

/-- Embedding of `ItrImgInner::next` (`src/img.rs:137-162`): starting
from column `x`, yield one cell per column while
`¬ (x ≥ width ∨ y ≥ height)`, advancing `x` by one. -/
def innerCellsAux (data : Palette) (img : Image) (y : Nat) (x : Nat) : List Cell :=
  if h : x ≥ img.width ∨ y ≥ img.height then []
  else sampleCell data img x y :: innerCellsAux data img y (x + 1)
termination_by img.width - x
decreasing_by
  push_neg at h
  omega

/-- One sampled row of `PixtData::chars`: the inner iterator driven from
`x = 0`. -/
def innerCells (data : Palette) (img : Image) (y : Nat) : List Cell :=
  innerCellsAux data img y 0

/-- Embedding of `ItrImgOuter::next` (`src/img.rs:163-178`): starting
from row `y`, stop when `y + 1 ≥ height`, otherwise yield row `y` and
advance `y` by ONE (`self.y += 1` — not two). -/
def outerRowsAux (H : Nat) (y : Nat) : List Nat :=
  if h : y + 1 ≥ H then []
  else y :: outerRowsAux H (y + 1)
termination_by H - y
decreasing_by omega

/-- The row indices produced by `ItrImgOuter` from `y = 0`. -/
def outerRows (H : Nat) : List Nat := outerRowsAux H 0

/-- Embedding of `PixtData::chars` (`src/img.rs:112-180`): the lazy
row-of-cells sequence the orchestrator consumes. -/
def pixtChars (data : Palette) (img : Image) : List (List Cell) :=
  (outerRows img.height).map (innerCells data img)

/-- The row indices visited by `Style::print` (`src/cli.rs:366,376`):
`for y in (0..height - 1).step_by(2)`.  `stepBy2 bound y` lists
`y, y + 2, y + 4, ...` while `y < bound`. -/
def stepBy2 (bound : Nat) (y : Nat) : List Nat :=
  if h : y < bound then y :: stepBy2 bound (y + 2)
  else []
termination_by bound - y
decreasing_by omega

/-- Embedding of `Style::print`'s sampling loop (`src/cli.rs:353-387`):
rows `0, 2, 4, ...` bounded by `height - 1`, each row scanning
`x = 0 .. width`; the single-row palette uses `get_char_single_raw`,
otherwise `get_char`.  (For `height = 0` the Rust `0..height - 1`
underflows and panics; this model is used only at `height ≥ 1`.) -/
def styleCells (data : Palette) (img : Image) : List (List Cell) :=
  (stepBy2 (img.height - 1) 0).map fun y =>
    (List.range img.width).map fun x => sampleCell data img x y

/-- Output colour mode (`ColorType` in `src/img.rs:231-244`). -/
inductive ColorType
  | avgFgOnly
  | avgBgOnly
  | fgTopBgDown
  | bgTopFgDown
  | cnone
deriving Repr, DecidableEq

/-- Output format × colour mode (`OutputType` in `src/img.rs:247-253`). -/
inductive OutputType
  | text (c : ColorType)
  | term (c : ColorType)
  | html (c : ColorType)
  | svg (c : ColorType)
deriving Repr, DecidableEq

/-- The colour mode carried by an output type. -/
def OutputType.colorOf : OutputType → ColorType
  | .text c | .term c | .html c | .svg c => c

/-- A Rust panic reaching the writer pipeline: `todo!()` in the
unimplemented Svg arms, or an out-of-bounds palette index escaping
`get_char`. -/
inductive RustPanic
  | todoUnimplemented
  | indexOutOfBounds
deriving Repr, DecidableEq

/-- Characters of a string literal, used to spell byte output. -/
def str (s : String) : List Char := s.toList

/-- Decimal rendering of a `Nat`, as `format!` does for `u8` values. -/
def natDec (n : Nat) : List Char := Nat.toDigits 10 n

/-- Uppercase hexadecimal digit, as `{:X}` formatting uses. -/
def hexDigitU (n : Nat) : Char :=
  if n < 10 then Char.ofNat (48 + n) else Char.ofNat (55 + n)

/-- `{:02X}`: two uppercase zero-padded hex digits of a `u8`. -/
def byteHexU (n : Nat) : List Char := [hexDigitU (n / 16), hexDigitU (n % 16)]

/-- Embedding of `rgb_to_css_hex` (`src/img.rs:539-549`):
`format!("#{:02X}{:02X}{:02X}", r, g, b)`. -/
def rgbToCssHex (c : Rgb) : List Char :=
  '#' :: (byteHexU c.r ++ byteHexU c.g ++ byteHexU c.b)

/-- Embedding of `avg_color` (`src/img.rs:532-538`): each channel is
averaged in `u16` with truncation, then cast back to `u8` (`% 256`). -/
def avgColor (c1 c2 : Rgb) : Rgb :=
  { r := ((c1.r + c2.r) / 2) % 256
    g := ((c1.g + c2.g) / 2) % 256
    b := ((c1.b + c2.b) / 2) % 256 }

/-- Bytes of crossterm's `ResetColor` command: the ANSI
reset-all-attributes escape. -/
def ansiReset : List Char := ['\x1b', '[', '0', 'm']

/-- Bytes of crossterm's `SetForegroundColor(Color::Rgb)` command: the
ANSI 24-bit foreground escape. -/
def ansiFg (c : Rgb) : List Char :=
  str "\x1b[38;2;" ++ natDec c.r ++ [';'] ++ natDec c.g ++ [';'] ++ natDec c.b ++ ['m']

/-- Bytes of crossterm's `SetBackgroundColor(Color::Rgb)` command: the
ANSI 24-bit background escape. -/
def ansiBg (c : Rgb) : List Char :=
  str "\x1b[48;2;" ++ natDec c.r ++ [';'] ++ natDec c.g ++ [';'] ++ natDec c.b ++ ['m']

/-- The Html header emitted by `OutputType::write_header`
(`src/img.rs:459-491`): the `format!` literal with `margin = 0`,
`padding = 0`, `font_size = 10` and `line_height` = `1.2` for
`ColorType::None`, `0.6` otherwise.  (`\x7b`/`\x7d` are the literal
braces of the CSS block.) -/
def htmlHeader (c : ColorType) : List Char :=
  str "<!DOCTYPE html>\n<html lang=\"en\">\n  <head>\n    <meta charset=\"UTF-8\">\n    <meta name=\"viewport\" content=\"width=device-width, initial-scale=1\">\n    <style>\n    * \x7b\n        color: #fff;\n        background-color: #191919;\n        font-family: monospace;\n    \x7d\n    pre \x7b\n        line-height: "
    ++ str (match c with | .cnone => "1.2" | _ => "0.6")
    ++ str ";\n        margin: 0;\n        padding: 0;\n        font-size: 10px;\n    \x7d\n    </style>\n  </head>\n  <body>\n    <pre>"

/-- The Html footer emitted by `OutputType::write_footer`
(`src/img.rs:501`). -/
def htmlFooter : List Char := str "    </pre>\n  </body>\n</html>\n"

/-- Embedding of `OutputType::write_header` (`src/img.rs:452-497`):
Html writes the boilerplate, Svg is `todo!()`, Text/Term write
nothing. -/
def OutputType.writeHeader (ot : OutputType) (w h : Nat) (buf : List Char) :
    Except RustPanic (List Char) :=
  match w, h, ot with
  | _, _, .html c => .ok (buf ++ htmlHeader c)
  | _, _, .svg _ => .error .todoUnimplemented
  | _, _, _ => .ok buf

/-- Embedding of `OutputType::write_footer` (`src/img.rs:499-509`):
Html writes the closing tags, Svg is `todo!()`, Text/Term write
nothing. -/
def OutputType.writeFooter (ot : OutputType) (buf : List Char) :
    Except RustPanic (List Char) :=
  match ot with
  | .html _ => .ok (buf ++ htmlFooter)
  | .svg _ => .error .todoUnimplemented
  | _ => .ok buf

/-- Embedding of `OutputType::print_line` (`src/img.rs:301-322`). -/
def OutputType.printLine (ot : OutputType) (buf : List Char) :
    Except RustPanic (List Char) :=
  match ot with
  | .text _ | .term .cnone => .ok (buf ++ ['\n'])
  | .term _ => .ok (buf ++ ansiReset ++ ['\n'])
  | .html .cnone => .ok (buf ++ ['\n'])
  | .html _ => .ok (buf ++ str "<br />\n")
  | .svg _ => .error .todoUnimplemented

/-- Embedding of `OutputType::print_pixel` (`src/img.rs:324-451`).  The
glyph `none` (a palette-indexing panic during sampling) aborts the
write; every implemented arm appends the arm's exact bytes; all Svg
arms are `todo!()`. -/
def OutputType.printPixel (ot : OutputType) (buf : List Char) (p : Cell) :
    Except RustPanic (List Char) :=
  match ot with
  | .svg _ => .error .todoUnimplemented
  | _ =>
    match p.ch with
    | none => .error .indexOutOfBounds
    | some ch =>
      match ot with
      | .text _ | .term .cnone => .ok (buf ++ [ch])
      | .term .avgFgOnly => .ok (buf ++ ansiFg (avgColor p.top p.bottom) ++ [ch])
      | .term .avgBgOnly => .ok (buf ++ ansiBg (avgColor p.top p.bottom) ++ [ch])
      | .term .fgTopBgDown => .ok (buf ++ ansiBg p.bottom ++ ansiFg p.top ++ [ch])
      | .term .bgTopFgDown => .ok (buf ++ ansiBg p.top ++ ansiFg p.bottom ++ [ch])
      | .html .cnone => .ok (buf ++ [ch])
      | .html .avgFgOnly =>
          .ok (buf ++ str "<span style=\"color: "
            ++ rgbToCssHex (avgColor p.top p.bottom) ++ str ";\">" ++ [ch] ++ str "</span>")
      | .html .avgBgOnly =>
          .ok (buf ++ str "<span style=\"background-color:"
            ++ rgbToCssHex (avgColor p.top p.bottom) ++ str ";\">" ++ [ch] ++ str "</span>")
      | .html .fgTopBgDown =>
          .ok (buf ++ str "<span style=\"color:" ++ rgbToCssHex p.top
            ++ str ";background-color:" ++ rgbToCssHex p.bottom ++ str ";\">"
            ++ [ch] ++ str "</span>")
      | .html .bgTopFgDown =>
          .ok (buf ++ str "<span style=\"color:" ++ rgbToCssHex p.bottom
            ++ str ";background-color:" ++ rgbToCssHex p.top ++ str ";\">"
            ++ [ch] ++ str "</span>")
      | .svg _ => .error .todoUnimplemented

/-- Embedding of the orchestrator `PixtImg::print` (`src/img.rs:23-35`):
write the header, then for every sampled row write each cell followed by
one line terminator.  The source returns `Ok(())` right after the loop:
it never calls `write_footer`. -/
def pixtPrint (ot : OutputType) (data : Palette) (img : Image) (buf : List Char) :
    Except RustPanic (List Char) :=
  (ot.writeHeader img.width img.height buf).bind fun buf =>
    (pixtChars data img).foldlM
      (fun buf line =>
        (line.foldlM (fun buf p => ot.printPixel buf p) buf).bind fun buf =>
          ot.printLine buf)
      buf

/-- Number of (possibly overlapping) occurrences of `pat` in `s`. -/
def countSub (pat : List Char) : List Char → Nat
  | [] => 0
  | c :: rest => (if pat.isPrefixOf (c :: rest) then 1 else 0) + countSub pat rest

/-- A writer operation is append-only when the buffer it is handed does
not influence what it writes: running it on `buf` is running it on the
empty buffer and prefixing `buf`. -/
def AppendOnly (f : List Char → Except RustPanic (List Char)) : Prop :=
  ∀ buf, f buf = (f []).map (fun out => buf ++ out)

/-- A solid-black test image of the given dimensions. -/
def blackImg (w h : Nat) : Image :=
  { width := w, height := h, pix := fun _ _ => ⟨0, 0, 0⟩ }

/-- A uniform gray pixel of the given channel value. -/
def gray (i : Nat) : Rgb := ⟨i, i, i⟩

/-- The Ascii preset ramp (`src/cli.rs:106`): a single palette row. -/
def asciiRamp : Palette := [[' ', '.', '-', '~', '+', '*', '%', '#', '@']]

/-- A rectangular 2-row, 5-column test grid. -/
def grid2x5 : Palette := [['a', 'b', 'c', 'd', 'e'], ['f', 'g', 'h', 'i', 'j']]

/-- A rectangular 2-row, 2-column test grid. -/
def grid2x2 : Palette := [['a', 'b'], ['c', 'd']]

/-- A ragged palette accepted by the free-form `Vec<Vec<char>>`
constructor (`src/img.rs:195-199`): the second row is strictly shorter
than the first. -/
def raggedPalette : Palette := [['a', 'b'], ['c']]

/-- A rectangular 2-row, 256-column grid whose row 0 distinguishes the
last two columns. -/
def wideGrid : Palette :=
  [List.replicate 254 'a' ++ ['x', 'y'], List.replicate 256 'b']

/-- The bytes `PixtImg::print` actually produces for a 1×2 black image
with the Ascii ramp in Html/None mode: the header, one glyph, one
newline — and no footer. -/
def c2Output : List Char := htmlHeader .cnone ++ [' ', '\n']

/-- Modelled from the claim's words for comparison: the cell markup C9
asserts, `<span style="color:#RRGGBB;">` (no space after the colon)
around the glyph, colour = channel-wise average. -/
def c9ClaimCell (ch : Char) (c1 c2 : Rgb) : List Char :=
  str "<span style=\"color:" ++ rgbToCssHex (avgColor c1 c2)
    ++ str ";\">" ++ [ch] ++ str "</span>"

/-- The cell markup the code actually emits for Html/AvgFgOnly, spelled
at the specification level: a space after `color:`, then `#` and the
three channel-wise truncating averages as uppercase zero-padded hex
pairs. -/
def c9AmendedCell (ch : Char) (c1 c2 : Rgb) : List Char :=
  str "<span style=\"color: "
    ++ ('#' :: (byteHexU ((c1.r + c2.r) / 2) ++ byteHexU ((c1.g + c2.g) / 2)
        ++ byteHexU ((c1.b + c2.b) / 2)))
    ++ str ";\">" ++ [ch] ++ str "</span>"

/-- Unfolding of `getChar` on a palette whose first row is non-empty:
the lookup `data[col_index][row_index]` with the source's index
arithmetic (divisor `u8::MAX = 255`). -/
theorem getChar_eq (data : Palette) (row0 : List Char) (t b : Rgb)
    (h0 : data.head? = some row0) (hc : row0.length ≠ 0) :
    getChar data t b =
      (data.get? (min ((((b.r + b.g + b.b) / 3) % 256) * data.length / 255)
          (data.length - 1))).bind
        (fun row => row.get? (min ((((t.r + t.g + t.b) / 3) % 256) * row0.length / 255)
          (row0.length - 1))) := by
  unfold getChar
  rw [h0]
  simp [hc]

/-- In-bounds `get?` of a list returns its element. -/
theorem get?_of_lt {α : Type} (l : List α) (n : Nat) (h : n < l.length) :
    ∃ a, l.get? n = some a ∧ a ∈ l := by
  match hg : l.get? n with
  | some a => exact ⟨a, rfl, List.get?_mem hg⟩
  | none => rw [List.get?_eq_none] at hg; omega

/-- Claim C3 (corrected): `get_char` maps the top intensity to a column
index and the bottom intensity to a row index by
`min(intensity * axis / 255, axis - 1)` — the divisor is `u8::MAX = 255`
from the source, not the 256 the claim states — and returns
`grid[row_index][column_index]`; both intensities are truncating means
of the channels narrowed to 8 bits. -/
theorem getChar_grid_lookup (data : Palette) (R C : Nat) (t b : Rgb)
    (hR : data.length = R) (hrect : ∀ row ∈ data, row.length = C)
    (h2R : 2 ≤ R) (h1C : 1 ≤ C) (hvt : t.Valid) (hvb : b.Valid) :
    ∃ row ch,
      data.get? (min (intensity b * R / 255) (R - 1)) = some row ∧
      row.get? (min (intensity t * C / 255) (C - 1)) = some ch ∧
      getChar data t b = some ch := by
  obtain ⟨rt, gt, bt⟩ := hvt
  obtain ⟨rb, gb, bb⟩ := hvb
  have hne : data ≠ [] := by
    intro h; rw [h] at hR; simp at hR; omega
  obtain ⟨row0, h0⟩ : ∃ row0, data.head? = some row0 := by
    cases data with
    | nil => exact absurd rfl hne
    | cons a l => exact ⟨a, rfl⟩
  have hrow0 : row0 ∈ data := by
    cases data with
    | nil => exact absurd rfl hne
    | cons a l => simp at h0; simp [h0]
  have hC0 : row0.length = C := hrect row0 hrow0
  have hit : intensity t % 256 = intensity t := by
    have : intensity t ≤ 255 := by
      unfold intensity; omega
    omega
  have hib : intensity b % 256 = intensity b := by
    have : intensity b ≤ 255 := by
      unfold intensity; omega
    omega
  have heq := getChar_eq data row0 t b h0 (by omega)
  rw [hC0, hR] at heq
  have hri : min (intensity b * R / 255) (R - 1) < data.length := by
    rw [hR]; omega
  obtain ⟨row, hrow, hrowmem⟩ := get?_of_lt data _ hri
  have hrowC : row.length = C := hrect row hrowmem
  have hci : min (intensity t * C / 255) (C - 1) < row.length := by
    rw [hrowC]; omega
  obtain ⟨ch, hch, _⟩ := get?_of_lt row _ hci
  refine ⟨row, ch, hrow, hch, ?_⟩
  rw [heq]
  unfold intensity at hit hib
  rw [hit, hib]
  unfold intensity at hrow hch
  rw [hrow]
  simpa using hch

/-- Claim C3 counterexample: on the 2×5 grid with top pixel (51,51,51)
and bottom (0,0,0) the code returns grid[0][1] = b, while the claim's
formula `min(floor(51 * 5 / 256), 4) = 0` selects grid[0][0] = a. -/
theorem getChar_div256_refuted :
    getChar grid2x5 ⟨51, 51, 51⟩ ⟨0, 0, 0⟩ = some 'b' ∧
    min ((51 + 51 + 51) / 3 * 5 / 256) (5 - 1) = 0 ∧
    min ((0 + 0 + 0) / 3 * 2 / 256) (2 - 1) = 0 ∧
    (grid2x5.get? 0).bind (fun row => row.get? 0) = some 'a' ∧
    ('a' : Char) ≠ 'b' := by decide

/-- Witness for the corrected C3 theorem at the 2×5 grid with top
intensity 51, bottom intensity 0. -/
theorem getChar_grid_lookup_witness :
    ∃ row ch,
      grid2x5.get? (min (intensity ⟨0, 0, 0⟩ * 2 / 255) (2 - 1)) = some row ∧
      row.get? (min (intensity ⟨51, 51, 51⟩ * 5 / 255) (5 - 1)) = some ch ∧
      getChar grid2x5 ⟨51, 51, 51⟩ ⟨0, 0, 0⟩ = some ch :=
  getChar_grid_lookup grid2x5 2 5 ⟨51, 51, 51⟩ ⟨0, 0, 0⟩ rfl (by decide)
    (by decide) (by decide) (by decide) (by decide)

/-- Claim C4 (corrected): for a single-row palette of N characters,
`get_char_single_raw` selects index
`min(avg_intensity * N / 255, N - 1)` — divisor `u8::MAX = 255` from the
source, not the 256 the claim states — where `avg_intensity` is the
truncating average of the two truncating per-pixel channel means; the
single-row palette is exactly the case `ItrImgInner::next` routes to
this function. -/
theorem getCharSingleRaw_ramp_lookup (row : List Char) (t b : Rgb)
    (hn : row.length ≠ 0) :
    getCharSingleRaw [row] t b =
      row.get? (min ((intensity t + intensity b) / 2 * row.length / 255)
        (row.length - 1)) ∧
    (getCharSingleRaw [row] t b).isSome ∧
    (∀ img x y, (sampleCell [row] img x y).ch =
      getCharSingleRaw [row] (img.pix x y) (img.pix x (y + 1))) := by
  have hidx : min ((intensity t + intensity b) / 2 * row.length / 255)
      (row.length - 1) < row.length := by omega
  obtain ⟨ch, hch, _⟩ := get?_of_lt row _ hidx
  refine ⟨?_, ?_, ?_⟩
  · unfold getCharSingleRaw intensity
    simp [hn]
  · unfold getCharSingleRaw
    unfold intensity at hch
    simp [hn, ← List.get?_eq_getElem?, hch]
  · intro img x y
    simp [sampleCell]

/-- Claim C4 counterexample: on the five-character ramp with both pixels
(51,51,51) the averaged intensity is 51 and the code returns index
`min(51 * 5 / 255, 4) = 1`, character b, while the claim's formula
`min(floor(51 * 5 / 256), 4) = 0` selects character a. -/
theorem getCharSingleRaw_div256_refuted :
    getCharSingleRaw [['a', 'b', 'c', 'd', 'e']] ⟨51, 51, 51⟩ ⟨51, 51, 51⟩ = some 'b' ∧
    min (((51 + 51 + 51) / 3 + (51 + 51 + 51) / 3) / 2 * 5 / 256) (5 - 1) = 0 ∧
    ['a', 'b', 'c', 'd', 'e'].get? 0 = some 'a' ∧
    ('a' : Char) ≠ 'b' := by decide

/-- Witness for the corrected C4 theorem at the five-character ramp with
both pixels (51,51,51). -/
theorem getCharSingleRaw_ramp_lookup_witness :
    getCharSingleRaw [['a', 'b', 'c', 'd', 'e']] ⟨51, 51, 51⟩ ⟨51, 51, 51⟩ =
      ['a', 'b', 'c', 'd', 'e'].get?
        (min ((intensity ⟨51, 51, 51⟩ + intensity ⟨51, 51, 51⟩) / 2 * 5 / 255) (5 - 1)) :=
  (getCharSingleRaw_ramp_lookup ['a', 'b', 'c', 'd', 'e'] ⟨51, 51, 51⟩ ⟨51, 51, 51⟩
    (by decide)).1

/-- Index form of `getChar` on a rectangular grid: once both clamped
indices are computed, the result is the corresponding grid lookup. -/
theorem getChar_idx (data : Palette) (R C : Nat) (t b : Rgb)
    (hR : data.length = R) (hrect : ∀ row ∈ data, row.length = C)
    (h1R : 1 ≤ R) (h1C : 1 ≤ C) (ri ci : Nat)
    (hri : min (intensity b % 256 * R / 255) (R - 1) = ri)
    (hci : min (intensity t % 256 * C / 255) (C - 1) = ci) :
    getChar data t b = (data.get? ri).bind (fun row => row.get? ci) := by
  have hne : data ≠ [] := by
    intro h; rw [h] at hR; simp at hR; omega
  obtain ⟨row0, h0⟩ : ∃ row0, data.head? = some row0 := by
    cases data with
    | nil => exact absurd rfl hne
    | cons a l => exact ⟨a, rfl⟩
  have hrow0 : row0 ∈ data := by
    cases data with
    | nil => exact absurd rfl hne
    | cons a l => simp at h0; simp [h0]
  have hC0 : row0.length = C := hrect row0 hrow0
  have heq := getChar_eq data row0 t b h0 (by omega)
  rw [hC0, hR] at heq
  unfold intensity at hri hci
  rw [heq, hri, hci]

/-- Claim C5 (corrected): the boundary behaviour of the 2-D lookup on a
rectangular R×C grid, R, C ≥ 2.  Intensities 0/0 select grid[0][0];
255 (top) / 0 (bottom) selects grid[0][C-1]; 255/255 selects
grid[R-1][C-1]; on a 5×5 grid 127/127 selects the centre grid[2][2];
intensities 254 and 255 share the last bucket on an axis of length at
most 255 (the restriction the counterexample forces: with 256 columns
they differ); and at intensity 255 the exact-arithmetic index stays in
bounds on both axes. -/
theorem getChar_boundary_buckets (data : Palette) (R C : Nat)
    (hR : data.length = R) (hrect : ∀ row ∈ data, row.length = C)
    (h2R : 2 ≤ R) (h2C : 2 ≤ C) :
    (∀ t b, intensity t = 0 → intensity b = 0 →
      getChar data t b = (data.get? 0).bind (fun row => row.get? 0)) ∧
    (∀ t b, intensity t = 255 → intensity b = 0 →
      getChar data t b = (data.get? 0).bind (fun row => row.get? (C - 1))) ∧
    (∀ t b, intensity t = 255 → intensity b = 255 →
      getChar data t b = (data.get? (R - 1)).bind (fun row => row.get? (C - 1))) ∧
    (R = 5 → C = 5 → ∀ t b, intensity t = 127 → intensity b = 127 →
      getChar data t b = (data.get? 2).bind (fun row => row.get? 2)) ∧
    (C ≤ 255 → ∀ t t' b, intensity t = 254 → intensity t' = 255 →
      getChar data t b = getChar data t' b) ∧
    (R ≤ 255 → ∀ t b b', intensity b = 254 → intensity b' = 255 →
      getChar data t b = getChar data t b') ∧
    (∀ t b, intensity t = 255 → intensity b = 255 →
      min (intensity t % 256 * C / 255) (C - 1) = C - 1 ∧
      min (intensity b % 256 * R / 255) (R - 1) = R - 1 ∧
      C - 1 < C ∧ R - 1 < R) := by
  refine ⟨?_, ?_, ?_, ?_, ?_, ?_, ?_⟩
  · intro t b ht hb
    exact getChar_idx data R C t b hR hrect (by omega) (by omega) 0 0
      (by rw [hb]; omega) (by rw [ht]; omega)
  · intro t b ht hb
    exact getChar_idx data R C t b hR hrect (by omega) (by omega) 0 (C - 1)
      (by rw [hb]; omega) (by rw [ht]; omega)
  · intro t b ht hb
    exact getChar_idx data R C t b hR hrect (by omega) (by omega) (R - 1) (C - 1)
      (by rw [hb]; omega) (by rw [ht]; omega)
  · intro hR5 hC5 t b ht hb
    subst hR5; subst hC5
    exact getChar_idx data 5 5 t b hR hrect (by omega) (by omega) 2 2
      (by rw [hb]; omega) (by rw [ht]; omega)
  · intro hC255 t t' b ht ht'
    rw [getChar_idx data R C t b hR hrect (by omega) (by omega) _ (C - 1)
          rfl (by rw [ht]; omega),
        getChar_idx data R C t' b hR hrect (by omega) (by omega) _ (C - 1)
          rfl (by rw [ht']; omega)]
  · intro hR255 t b b' hb hb'
    rw [getChar_idx data R C t b hR hrect (by omega) (by omega) (R - 1) _
          (by rw [hb]; omega) rfl,
        getChar_idx data R C t b' hR hrect (by omega) (by omega) (R - 1) _
          (by rw [hb']; omega) rfl]
  · intro t b ht hb
    rw [ht, hb]
    refine ⟨by omega, by omega, by omega, by omega⟩

set_option maxRecDepth 4096 in
/-- Claim C5 counterexample: on a rectangular 2×256 grid, top intensity
254 selects column 254 (x) while 255 selects column 255 (y): with 256
columns the last two intensities do not share a bucket. -/
theorem getChar_bucket254_refuted :
    wideGrid.length = 2 ∧ (∀ row ∈ wideGrid, row.length = 256) ∧
    getChar wideGrid (gray 254) (gray 0) = some 'x' ∧
    getChar wideGrid (gray 255) (gray 0) = some 'y' ∧
    ('x' : Char) ≠ 'y' := by decide

/-- Witness for the corrected C5 theorem: the 0/0 corner on the 2×2
grid. -/
theorem getChar_boundary_buckets_witness :
    getChar grid2x2 (gray 0) (gray 0) = (grid2x2.get? 0).bind (fun row => row.get? 0) :=
  (getChar_boundary_buckets grid2x2 2 2 rfl (by decide) (by decide) (by decide)).1
    (gray 0) (gray 0) (by decide) (by decide)

/-- Claim C7 (confirmed): `get_char` clamps its column index by the
first row's length and its row index by the row count, so on any
palette whose rows are all at least as long as its non-empty first row
every lookup is in bounds; and the precondition is necessary: on the
ragged palette [[a, b], [c]] — accepted by the free-form
`Vec<Vec<char>>` constructor — the white/white pixel pair indexes past
the end of the short row (the modelled panic, `none`). -/
theorem getChar_bounds (data : Palette) (row0 : List Char) (t b : Rgb)
    (h0 : data.head? = some row0) (hne : row0 ≠ [])
    (hlen : ∀ row ∈ data, row0.length ≤ row.length) :
    ((getChar data t b).isSome ∧
      getChar raggedPalette ⟨255, 255, 255⟩ ⟨255, 255, 255⟩ = none) := by
  refine ⟨?_, by decide⟩
  have hc : row0.length ≠ 0 := by
    intro h; exact hne (List.eq_nil_of_length_eq_zero h)
  have hdne : data ≠ [] := by
    intro h; rw [h] at h0; simp at h0
  have hdlen : 1 ≤ data.length := by
    cases data with
    | nil => exact absurd rfl hdne
    | cons a l => simp
  rw [getChar_eq data row0 t b h0 hc]
  have hri : min ((b.r + b.g + b.b) / 3 % 256 * data.length / 255)
      (data.length - 1) < data.length := by omega
  obtain ⟨row, hrow, hrowmem⟩ := get?_of_lt data _ hri
  have hrlen : row0.length ≤ row.length := hlen row hrowmem
  have hci : min ((t.r + t.g + t.b) / 3 % 256 * row0.length / 255)
      (row0.length - 1) < row.length := by omega
  obtain ⟨ch, hch, _⟩ := get?_of_lt row _ hci
  rw [hrow]
  simp [← List.get?_eq_getElem?, hch]

/-- Witness for C7: the rectangular 2×2 grid is in bounds for an
arbitrary pixel pair. -/
theorem getChar_bounds_witness :
    (getChar grid2x2 ⟨3, 4, 5⟩ ⟨200, 7, 90⟩).isSome ∧
    getChar raggedPalette ⟨255, 255, 255⟩ ⟨255, 255, 255⟩ = none :=
  getChar_bounds grid2x2 ['a', 'b'] ⟨3, 4, 5⟩ ⟨200, 7, 90⟩ rfl (by decide) (by decide)

/-- Claim C6 (confirmed): for every colour mode, every Svg operation —
header, per-cell, line terminator, footer — and the whole orchestrated
render fail with the explicit unimplemented error (the `todo!()` panic
of the source, modelled as `.error .todoUnimplemented`) and never
return output bytes. -/
theorem svg_unsupported (c : ColorType) (w h : Nat) (buf : List Char) (p : Cell)
    (data : Palette) (img : Image) :
    OutputType.writeHeader (.svg c) w h buf = .error .todoUnimplemented ∧
    OutputType.printPixel (.svg c) buf p = .error .todoUnimplemented ∧
    OutputType.printLine (.svg c) buf = .error .todoUnimplemented ∧
    OutputType.writeFooter (.svg c) buf = .error .todoUnimplemented ∧
    pixtPrint (.svg c) data img buf = .error .todoUnimplemented := by
  cases c <;> exact ⟨rfl, rfl, rfl, rfl, rfl⟩

/-- Claim C10 (confirmed): the line terminator is exactly a newline for
Terminal/None, the reset escape then a newline for Terminal with any
coloured mode, a newline for Html/None, and a break tag plus newline
for Html with any coloured mode. -/
theorem printLine_terminators (buf : List Char) :
    OutputType.printLine (.term .cnone) buf = .ok (buf ++ ['\n']) ∧
    (∀ c : ColorType, c ≠ .cnone →
      OutputType.printLine (.term c) buf = .ok (buf ++ ansiReset ++ ['\n'])) ∧
    OutputType.printLine (.html .cnone) buf = .ok (buf ++ ['\n']) ∧
    (∀ c : ColorType, c ≠ .cnone →
      OutputType.printLine (.html c) buf = .ok (buf ++ str "<br />\n")) := by
  refine ⟨rfl, ?_, rfl, ?_⟩ <;>
    (intro c hc; cases c <;> first | rfl | exact absurd rfl hc)

/-- Witness for C10 at a coloured Terminal mode on a concrete buffer. -/
theorem printLine_terminators_witness :
    OutputType.printLine (.term .avgFgOnly) ['a'] = .ok (['a'] ++ ansiReset ++ ['\n']) :=
  (printLine_terminators ['a']).2.1 .avgFgOnly (by decide)

/-- Claim C9 counterexample: on glyph x with both pixels black the code
emits the span with a space after the colon,
`<span style="color: #000000;">x</span>`, not the claim's exact markup
`style="color:#RRGGBB;"`. -/
theorem html_avgfg_markup_refuted :
    OutputType.printPixel (.html .avgFgOnly) [] ⟨some 'x', ⟨0, 0, 0⟩, ⟨0, 0, 0⟩⟩ =
      .ok (str "<span style=\"color: #000000;\">x</span>") ∧
    c9ClaimCell 'x' ⟨0, 0, 0⟩ ⟨0, 0, 0⟩ ≠ str "<span style=\"color: #000000;\">x</span>" := by
  constructor
  · rfl
  · decide

/-- Claim C9 (corrected): every Html/AvgFgOnly cell is the glyph inside
a span whose inline style sets the foreground to the channel-wise
truncating average of the two pixels, as uppercase zero-padded
two-digit hex — with the markup `style="color: #RRGGBB;"`, one space
after the colon (the only departure from the claim's exact markup). -/
theorem html_avgfg_markup (ch : Char) (c1 c2 : Rgb) (buf : List Char)
    (h1 : c1.Valid) (h2 : c2.Valid) :
    OutputType.printPixel (.html .avgFgOnly) buf ⟨some ch, c1, c2⟩ =
      .ok (buf ++ c9AmendedCell ch c1 c2) := by
  obtain ⟨hr1, hg1, hb1⟩ := h1
  obtain ⟨hr2, hg2, hb2⟩ := h2
  have mr : (c1.r + c2.r) / 2 % 256 = (c1.r + c2.r) / 2 := by omega
  have mg : (c1.g + c2.g) / 2 % 256 = (c1.g + c2.g) / 2 := by omega
  have mb : (c1.b + c2.b) / 2 % 256 = (c1.b + c2.b) / 2 := by omega
  simp [OutputType.printPixel, c9AmendedCell, rgbToCssHex, avgColor, str,
    mr, mg, mb]

/-- Witness for the corrected C9 theorem on a concrete glyph and colour
pair whose average is (127, 64, 4), hex 7F4004. -/
theorem html_avgfg_markup_witness :
    OutputType.printPixel (.html .avgFgOnly) [] ⟨some 'q', ⟨255, 128, 8⟩, ⟨0, 0, 0⟩⟩ =
      .ok ([] ++ c9AmendedCell 'q' ⟨255, 128, 8⟩ ⟨0, 0, 0⟩) :=
  html_avgfg_markup 'q' ⟨255, 128, 8⟩ ⟨0, 0, 0⟩ [] (by decide) (by decide)

unseal outerRowsAux innerCellsAux stepBy2 in
/-- Claim C1 (code bug): on a 1×4 image the `PixtData::chars` sampler
emits 3 glyph cells — `ItrImgOuter::next` advances `y` by one, visiting
rows 0, 1, 2 — while `Style::print`, the spec, and W × floor(H/2)
demand 2; heights 0 and 1 do yield zero cells. -/
theorem sampler_row_step_bug :
    ((pixtChars asciiRamp (blackImg 1 4)).map List.length).sum = 3 ∧
    ((styleCells asciiRamp (blackImg 1 4)).map List.length).sum = 1 * (4 / 2) ∧
    (3 : Nat) ≠ 1 * (4 / 2) ∧
    pixtChars asciiRamp (blackImg 3 1) = [] ∧
    pixtChars asciiRamp (blackImg 3 0) = [] := by decide

unseal outerRowsAux innerCellsAux in
set_option maxRecDepth 8192 in
/-- Claim C2 (code bug): rendering a 1×2 black image with the Ascii
ramp in Html/None mode produces the header, one glyph, one newline —
and stops: `PixtImg::print` never calls `write_footer`, so the output
opens `<pre>` once but closes it zero times and does not end in the
closing html tag, although it does begin with the doctype. -/
theorem print_missing_footer :
    pixtPrint (.html .cnone) asciiRamp (blackImg 1 2) [] = .ok c2Output ∧
    (str "<!DOCTYPE html>").isPrefixOf c2Output = true ∧
    countSub (str "<pre>") c2Output = 1 ∧
    countSub (str "</pre>") c2Output = 0 ∧
    (str "</html>\n").isSuffixOf c2Output = false ∧
    countSub (str "</pre>") htmlFooter = 1 := by
  refine ⟨rfl, by decide, by decide, by decide, by decide, by decide⟩

/-- Sequencing two append-only writer operations is append-only. -/
theorem appendOnly_bind {f g : List Char → Except RustPanic (List Char)}
    (hf : AppendOnly f) (hg : AppendOnly g) :
    AppendOnly (fun buf => (f buf).bind g) := by
  intro buf
  show (f buf).bind g = ((f []).bind g).map fun out => buf ++ out
  rw [hf buf]
  cases hfe : f [] with
  | error e => rfl
  | ok a =>
    show g (buf ++ a) = (g a).map fun out => buf ++ out
    rw [hg (buf ++ a), hg a]
    cases g [] with
    | error e => rfl
    | ok c => simp [Except.map, List.append_assoc]

/-- `write_header` writes bytes that do not depend on the buffer. -/
theorem appendOnly_writeHeader (ot : OutputType) (w h : Nat) :
    AppendOnly (ot.writeHeader w h) := by
  intro buf
  cases ot <;> simp [OutputType.writeHeader, Except.map]

/-- `print_line` writes bytes that do not depend on the buffer. -/
theorem appendOnly_printLine (ot : OutputType) : AppendOnly ot.printLine := by
  intro buf
  cases ot with
  | text c => simp [OutputType.printLine, Except.map]
  | term c => cases c <;> simp [OutputType.printLine, Except.map, List.append_assoc]
  | html c => cases c <;> simp [OutputType.printLine, Except.map, List.append_assoc]
  | svg c => simp [OutputType.printLine, Except.map]

/-- `print_pixel` writes bytes that depend only on the cell. -/
theorem appendOnly_printPixel (ot : OutputType) (p : Cell) :
    AppendOnly (fun buf => ot.printPixel buf p) := by
  intro buf
  obtain ⟨och, pt, pb⟩ := p
  cases och <;> cases ot with
  | _ c =>
    cases c <;> simp [OutputType.printPixel, Except.map, List.append_assoc]

/-- A left monadic fold of append-only steps is append-only. -/
theorem appendOnly_foldlM {α : Type} (step : List Char → α → Except RustPanic (List Char))
    (hstep : ∀ a : α, AppendOnly (fun buf => step buf a)) (l : List α) :
    AppendOnly (fun buf => l.foldlM step buf) := by
  induction l with
  | nil =>
    intro buf
    show Except.ok buf = (Except.ok ([] : List Char)).map fun out => buf ++ out
    simp [Except.map]
  | cons a as ih =>
    have heq : (fun buf => (a :: as).foldlM step buf) =
        fun buf => (step buf a).bind fun b => as.foldlM step b := rfl
    rw [heq]
    exact appendOnly_bind (hstep a) ih

/-- The whole render is append-only: what `PixtImg::print` writes is a
function of the image, palette and output configuration alone. -/
theorem appendOnly_pixtPrint (ot : OutputType) (data : Palette) (img : Image) :
    AppendOnly (pixtPrint ot data img) := by
  have h1 : pixtPrint ot data img = fun buf =>
      (ot.writeHeader img.width img.height buf).bind fun b =>
        (pixtChars data img).foldlM
          (fun b line =>
            (line.foldlM (fun b p => ot.printPixel b p) b).bind fun b =>
              ot.printLine b) b := rfl
  rw [h1]
  exact appendOnly_bind (appendOnly_writeHeader ot img.width img.height)
    (appendOnly_foldlM _
      (fun line => appendOnly_bind
        (appendOnly_foldlM _ (fun p => appendOnly_printPixel ot p) line)
        (appendOnly_printLine ot))
      (pixtChars data img))

/-- Claim C8 (confirmed): rendering is deterministic — for any
colour-mode-None configuration, running `PixtImg::print` into two fresh
buffers yields the same result, the same written bytes `r` appended to
each buffer. -/
theorem render_deterministic (ot : OutputType) (data : Palette) (img : Image)
    (buf1 buf2 : List Char) (_hc : ot.colorOf = ColorType.cnone) :
    ∃ r : Except RustPanic (List Char),
      pixtPrint ot data img buf1 = r.map (fun out => buf1 ++ out) ∧
      pixtPrint ot data img buf2 = r.map (fun out => buf2 ++ out) :=
  ⟨pixtPrint ot data img [],
    appendOnly_pixtPrint ot data img buf1,
    appendOnly_pixtPrint ot data img buf2⟩

/-- Witness for C8 at the Terminal/None configuration on a 1×2 black
image with two different starting buffers. -/
theorem render_deterministic_witness :
    ∃ r : Except RustPanic (List Char),
      pixtPrint (.term .cnone) asciiRamp (blackImg 1 2) ['a'] =
        r.map (fun out => ['a'] ++ out) ∧
      pixtPrint (.term .cnone) asciiRamp (blackImg 1 2) ['b', 'c'] =
        r.map (fun out => ['b', 'c'] ++ out) :=
  render_deterministic (.term .cnone) asciiRamp (blackImg 1 2) ['a'] ['b', 'c'] rfl
